import Mathlib

/-!
Verification of the clustering service in `src/main.py` (FastAPI endpoint
`perform_clustering`) against its natural-language specification.

The endpoint's own logic (label-column handling, column-type classification,
response assembly, exception translation) is embedded from `src/main.py`.
The two helpers it imports, `find_best_dbscan_params` and `CustomMFA`, live in
`helpers/clustering_helpers.py`, which is not part of the provided sources;
those two are modelled from the specification (sections 4.1 and 4.3), as
noted on each definition.  Purely numeric external routines (the DBSCAN
fitting itself, the silhouette formula, the sklearn preprocessing pipeline,
the five external validation metrics, PCA eigendecomposition) are treated as
opaque collaborators: they enter as function parameters, or the embedding
records the exact arguments the code hands them.
-/

namespace CurotecTask

/-- A feature matrix: a list of rows, each a list of rationals. -/
abbrev Mat := List (List ℚ)

/-- Number of columns of a matrix, read off the first row (numpy-style shape
for the matrices the pipeline builds, which are rectangular). -/
def numCols (X : Mat) : Nat := (X.headD []).length

/-- One cell of the uploaded table: missing (NaN after `pd.read_csv`) or a
raw string value. -/
inductive Cell where
  | missing : Cell
  | val : String → Cell
deriving DecidableEq, Repr

/-- A named column of the uploaded table. -/
structure Column where
  name : String
  cells : List Cell
deriving DecidableEq, Repr

/-- The `ClusteringParams` pydantic model of `src/main.py` (lines 26-32). -/
structure ClusteringParams where
  eps_range : List ℚ
  min_samples_range : List Nat
  label_column_index : Option Int
  max_grid_search_combinations : Option Nat
  n_components_global : Nat
  do_mfa : Bool
deriving DecidableEq, Repr

/-- A clustering request: uploaded file name, parsed data frame (list of
columns), and the validated parameters. -/
structure Request where
  filename : String
  df : List Column
  params : ClusteringParams
deriving DecidableEq, Repr

/-! ### Grid search optimizer, modelled from the spec (section 4.1) -/

/-- Failure modes of the search, from the spec's error taxonomy. -/
inductive SearchErr where
  | invalidSearchSpace : SearchErr
  | insufficientData : SearchErr
deriving DecidableEq, Repr

/-- One Combination Result: the parameter pair, the resulting partition,
its cluster / noise counts and its (possibly undefined) silhouette score. -/
structure ComboResult where
  eps : ℚ
  min_samples : Nat
  labels : List Int
  n_clusters : Nat
  n_noise : Nat
  score : Option ℚ
deriving DecidableEq, Repr

/-- Modelled from the spec: enumeration of the Cartesian product of the two
candidate sequences, outer loop over `eps_range`, inner loop over
`min_samples_range`, truncated to the first `max_combinations` pairs when the
cap is set (spec section 4.1 step 1). -/
def gridCombos (eps_range : List ℚ) (min_samples_range : List Nat)
    (cap : Option Nat) : List (ℚ × Nat) :=
  let all := eps_range.flatMap (fun e => min_samples_range.map (fun m => (e, m)))
  match cap with
  | none => all
  | some c => all.take c

/-- Number of non-noise clusters of a partition: distinct identifiers
excluding the noise sentinel -1 (spec section 4.1 step 3). -/
def nClusters (labels : List Int) : Nat :=
  (labels.dedup.filter (fun c => c ≠ -1)).length

/-- Modelled from the spec: a combination's score is undefined when the
partition is degenerate (`k < 2` or `k ≥ n_samples`), and otherwise the mean
silhouette coefficient, supplied by the opaque numeric routine `sil`
(spec section 4.1 step 4). -/
def comboScore (nSamples : Nat) (sil : List Int → ℚ) (labels : List Int) :
    Option ℚ :=
  let k := nClusters labels
  if k < 2 ∨ k ≥ nSamples then none else some (sil labels)

/-- Evaluate one parameter combination: run the (opaque) DBSCAN fit, count
clusters and noise, score (spec section 4.1 steps 2-4). -/
def evalCombo (X : Mat) (runDBSCAN : Mat → ℚ → Nat → List Int)
    (sil : Mat → List Int → ℚ) (c : ℚ × Nat) : ComboResult :=
  let labels := runDBSCAN X c.1 c.2
  { eps := c.1
    min_samples := c.2
    labels := labels
    n_clusters := nClusters labels
    n_noise := labels.countP (fun x => x = -1)
    score := comboScore X.length (sil X) labels }

/-- Is the candidate score strictly better than the incumbent?  An undefined
score is strictly worse than any numeric score; between numeric scores,
strictly greater wins (so ties keep the earlier combination). -/
def candBetter : Option ℚ → Option ℚ → Bool
  | none, _ => false
  | some _, none => true
  | some a, some b => decide (b < a)

/-- Modelled from the spec: stable argmax over the ordered result list —
maximum defined score wins, ties go to the earliest-enumerated combination,
and when every score is undefined the first combination is kept
(spec section 4.1 step 5). -/
def bestOf : List ComboResult → Option ComboResult
  | [] => none
  | r :: rs =>
    match bestOf rs with
    | none => some r
    | some b => if candBetter b.score r.score then some b else some r

/-- The optimizer's output: the chosen best Combination Result plus the full
ordered result list. -/
structure FindBestOut where
  best : ComboResult
  results : List ComboResult
deriving DecidableEq, Repr

/-- Modelled from the spec: `find_best_dbscan_params` is imported from
`helpers/clustering_helpers.py`, which is not under the provided sources;
this models spec section 4.1 — enumerate combinations (with optional cap),
evaluate and score each, select by stable argmax with the all-undefined
fallback; empty candidate sequences fail with `InvalidSearchSpace`, fewer
than 2 rows with `InsufficientData`.  The DBSCAN fit and the silhouette
formula are opaque numeric collaborators, passed as parameters. -/
def find_best_dbscan_params (X : Mat) (eps_range : List ℚ)
    (min_samples_range : List Nat) (cap : Option Nat)
    (runDBSCAN : Mat → ℚ → Nat → List Int) (sil : Mat → List Int → ℚ) :
    Except SearchErr FindBestOut :=
  if eps_range.isEmpty ∨ min_samples_range.isEmpty then
    .error .invalidSearchSpace
  else if X.length < 2 then
    .error .insufficientData
  else
    let results := (gridCombos eps_range min_samples_range cap).map
      (evalCombo X runDBSCAN sil)
    match bestOf results with
    | some b => .ok ⟨b, results⟩
    | none => .error .invalidSearchSpace

/-! ### Multi-Factor Reducer, modelled from the spec (section 4.3) -/

/-- MFA failure mode, from the spec's error taxonomy. -/
inductive MFAErr where
  | invalidComponentCount : MFAErr
deriving DecidableEq, Repr

/-- Modelled from the spec: a group's weight stands in for dividing by the
square root of its leading PCA eigenvalue (an external numeric eigenvalue
computation, irrational in general); it is a positive rational computed from
the group's entries, with the spec's single-column edge case honoured (a
zero-variance group must not divide by zero).  The claims about `CustomMFA`
concern the component-count guard and the output shape, which no choice of
positive weight affects. -/
def groupWeight (X : Mat) (g : List Nat) : ℚ :=
  let s := (X.map (fun row =>
    (g.filterMap (fun j => (row.get? j).map (fun x => x * x))).sum)).sum
  if s = 0 then 1 else 1 / s

/-- One row of the concatenated weighted matrix: for each group in order,
the row's entries at the group's column indices, scaled by the group's
weight (spec section 4.3 steps 2-3). -/
def mfaRow (gws : List (List Nat × ℚ)) (row : List ℚ) : List ℚ :=
  gws.flatMap (fun gw => gw.1.filterMap (fun j => (row.get? j).map (fun x => gw.2 * x)))

/-- Modelled from the spec: the global PCA retains the first
`n_components_global` components of the concatenated weighted matrix
(spec section 4.3 step 4).  The projection basis itself comes from an
external eigendecomposition; it is modelled by a fixed linear projection
keeping `k` coordinates per row, which has the contracted output shape —
the only aspect of the projection the claims depend on. -/
def pcaRetain (k : Nat) (Z : Mat) : Mat :=
  Z.map (fun row => row.take k)

/-- Modelled from the spec: `CustomMFA` is imported from
`helpers/clustering_helpers.py`, which is not under the provided sources;
this models its fit-transform per spec section 4.3 — per-group weighting,
column-wise concatenation, a guard failing with `InvalidComponentCount` when
`n_components_global` exceeds the concatenated matrix's column count, then a
global PCA retaining the first `n_components_global` components. -/
def CustomMFA_fit_transform (groups : List (List Nat))
    (n_components_global : Nat) (X : Mat) : Except MFAErr Mat :=
  let gws := groups.map (fun g => (g, groupWeight X g))
  let Z := X.map (mfaRow gws)
  if n_components_global > (groups.map List.length).sum then
    .error .invalidComponentCount
  else
    .ok (pcaRetain n_components_global Z)

/-! ### The `/clustering` endpoint, embedded from `src/main.py` -/

/-- An HTTP error response (`HTTPException`): status code and detail. -/
structure HTTPError where
  status : Nat
  detail : String
deriving DecidableEq, Repr

/-- An exception raised inside the `try` block of `perform_clustering`:
an explicitly raised `HTTPException`, a Python `IndexError` from indexing
`columns` out of range, or an error propagating out of the two helpers. -/
inductive ClusterExc where
  | httpExc : Nat → String → ClusterExc
  | indexError : ClusterExc
  | mfaErr : MFAErr → ClusterExc
  | searchErr : SearchErr → ClusterExc
deriving DecidableEq, Repr

/-- The `str(e)` rendering the blanket handler interpolates into its detail
message.  Only the 500-translation itself matters to the claims, not the
exact text of each exception. -/
def ClusterExc.msg : ClusterExc → String
  | .httpExc s d => toString s ++ ": " ++ d
  | .indexError => "list index out of range"
  | .mfaErr _ => "n_components_global cannot exceed the number of columns"
  | .searchErr _ => "invalid search space"

/-- Python sequence indexing `columns[idx]`: non-negative indices from the
front, negative indices from the back, `IndexError` (here `none`) when out
of range either way. -/
def pyIndex (cols : List Column) (idx : Int) : Option Column :=
  if 0 ≤ idx then cols.get? idx.toNat
  else if -(cols.length : Int) ≤ idx then cols.get? ((cols.length : Int) + idx).toNat
  else none

/-- Lines 101-109 of `src/main.py`: validate the label column index
(rejecting with a 400 `HTTPException` exactly when `idx >= len(columns)`),
select `columns[idx]` (Python semantics, so negative indices count from the
end and an index below `-len(columns)` raises `IndexError`), and drop the
selected column by name from the data frame. -/
def selectLabelColumn (cols : List Column) (idx : Int) :
    Except ClusterExc (Column × List Column) :=
  if idx ≥ (cols.length : Int) then
    .error (.httpExc 400
      ("Invalid label column index. Must be smaller than "
        ++ toString ((cols.length : Int) - 1)))
  else
    match pyIndex cols idx with
    | none => .error .indexError
    | some c => .ok (c, cols.filter (fun c0 => c0.name ≠ c.name))

/-- Lines 100-109: when `label_column_index` is present, split off the label
column; otherwise keep the data frame intact with no true labels. -/
def splitLabel (req : Request) :
    Except ClusterExc (Option Column × List Column) :=
  match req.params.label_column_index with
  | none => .ok (none, req.df)
  | some idx => do
    let cs ← selectLabelColumn req.df idx
    .ok (some cs.1, cs.2)

/-- Lines 113-119 of `src/main.py`: a column is numeric when
`pd.to_numeric` succeeds on it, i.e. when every non-missing cell parses as a
number under the (opaque) numeric parser `p`; missing cells (NaN) pass
through `pd.to_numeric` unchanged. -/
def columnIsNumeric (p : String → Bool) (c : Column) : Bool :=
  c.cells.all (fun cell =>
    match cell with
    | .missing => true
    | .val s => p s)

/-- Lines 111-119: the classification loop appends each column, in order, to
exactly one of the numeric and categorical lists. -/
def classifyColumns (p : String → Bool) (df : List Column) :
    List Column × List Column :=
  df.partition (columnIsNumeric p)

/-- Lines 121-156: run the preprocessing pipeline (an opaque sklearn
collaborator `pre`, receiving the data frame and the two classified column
name lists) and, when `do_mfa` is set, the `CustomMFA` reduction with the
two groups built from the numeric width and the remaining encoded width. -/
def buildFeatures (pre : List Column → List String → List String → Mat)
    (params : ClusteringParams) (df : List Column)
    (numeric_cols categorical_cols : List String) : Except ClusterExc Mat :=
  let X := pre df numeric_cols categorical_cols
  if params.do_mfa then
    let nNum := numeric_cols.length
    let nCat := numCols X - nNum
    let groups := [List.range nNum, (List.range nCat).map (fun j => nNum + j)]
    (CustomMFA_fit_transform groups params.n_components_global X).mapError .mfaErr
  else
    .ok X

/-- Python truthiness of the optional index in line 189's
`label_column if params.label_column_index else None`: `None` and `0` are
falsy, every other integer is truthy. -/
def truthyIdx : Option Int → Bool
  | none => false
  | some i => i ≠ 0

/-- The response payload assembled in lines 183-203 of `src/main.py`.
The five external validation metrics are opaque sklearn collaborators;
`metricsInput` records the argument pair `(labels_true, best_labels)` the
code passes to every one of them (lines 174-178), `none` when no label
column was supplied so the metrics are not called at all. -/
structure Response where
  label_column : Option String
  numeric_columns : List String
  categorical_columns : List String
  parameter_combinations_tested : Nat
  best_eps : ℚ
  best_min_samples : Nat
  all_results : List ComboResult
  number_of_clusters : Nat
  noise_points : Nat
  silhouette_coefficient : Option ℚ
  metricsInput : Option (List Cell × List Int)
deriving DecidableEq, Repr

/-- Lines 163-203: build the response from the split label column, the
classified columns and the search outcome. -/
def mkResponse (req : Request) (lab : Option Column) (labName : Option String)
    (numeric_cols categorical_cols : List String) (out : FindBestOut) :
    Response :=
  { label_column := if truthyIdx req.params.label_column_index then labName else none
    numeric_columns := numeric_cols
    categorical_columns := categorical_cols
    parameter_combinations_tested := out.results.length
    best_eps := out.best.eps
    best_min_samples := out.best.min_samples
    all_results := out.results
    number_of_clusters := (out.best.labels.dedup.filter (fun c => c ≠ -1)).length
    noise_points := out.best.labels.countP (fun x => x = -1)
    silhouette_coefficient := out.best.score
    metricsInput := lab.map (fun c => (c.cells, out.best.labels)) }

/-- The body of the `try` block of `perform_clustering` (lines 87-205):
split off the label column, classify columns, preprocess (and optionally
reduce via MFA), run the grid search — note the call at lines 158-162 does
not forward `params.max_grid_search_combinations`, so the search runs
uncapped — and assemble the response. -/
def tryBody (p : String → Bool)
    (pre : List Column → List String → List String → Mat)
    (runDBSCAN : Mat → ℚ → Nat → List Int) (sil : Mat → List Int → ℚ)
    (req : Request) : Except ClusterExc Response := do
  let split ← splitLabel req
  let lab := split.1
  let df := split.2
  let cls := classifyColumns p df
  let numeric_cols := cls.1.map Column.name
  let categorical_cols := cls.2.map Column.name
  let X ← buildFeatures pre req.params df numeric_cols categorical_cols
  let out ← (find_best_dbscan_params X req.params.eps_range
    req.params.min_samples_range none runDBSCAN sil).mapError .searchErr
  .ok (mkResponse req lab (lab.map Column.name) numeric_cols categorical_cols out)

/-- Python `str.endswith(".csv")` on the upload's filename (line 84), stated
on the string's character list. -/
def endsWithCsv (s : String) : Bool := ".csv".data.isSuffixOf s.data

/-- The `/clustering` endpoint `perform_clustering` (lines 46-208): reject
non-CSV uploads with a 400 before the `try` block; inside it, any raised
exception — the invalid-label-index `HTTPException` included — is caught by
the blanket `except Exception` handler and re-raised as a 500 whose detail
prepends "Error during clustering: " to the exception's message. -/
def perform_clustering (p : String → Bool)
    (pre : List Column → List String → List String → Mat)
    (runDBSCAN : Mat → ℚ → Nat → List Int) (sil : Mat → List Int → ℚ)
    (req : Request) : Except HTTPError Response :=
  if ¬ endsWithCsv req.filename then
    .error ⟨400, "Only CSV files are supported"⟩
  else
    match tryBody p pre runDBSCAN sil req with
    | .ok resp => .ok resp
    | .error e => .error ⟨500, "Error during clustering: " ++ e.msg⟩

/-! ### Concrete collaborator instances, used to exercise the theorems -/

/-- A DBSCAN stand-in that marks every point as noise (the behaviour on data
whose points are all farther than `eps` apart). -/
def allNoiseD : Mat → ℚ → Nat → List Int := fun X _ _ => X.map (fun _ => -1)

/-- A DBSCAN stand-in that assigns each row its own index as cluster id. -/
def eachOwnD : Mat → ℚ → Nat → List Int :=
  fun X _ _ => (List.range X.length).map Int.ofNat

/-- A DBSCAN stand-in that alternates rows between clusters 0 and 1. -/
def twoClusterD : Mat → ℚ → Nat → List Int :=
  fun X _ _ => (List.range X.length).map (fun i => Int.ofNat (i % 2))

/-- A constant silhouette stand-in. -/
def zeroSil : Mat → List Int → ℚ := fun _ _ => 0

/-- A numeric parser stand-in accepting digit-only strings. -/
def digitsNum : String → Bool := fun s => s.data.all Char.isDigit

/-- A preprocessing stand-in: one feature column, one row per cell of the
first data-frame column. -/
def onesPre : List Column → List String → List String → Mat :=
  fun df _ _ => (df.headD ⟨"", []⟩).cells.map (fun _ => [(0 : ℚ)])

/-- A three-column data frame whose first column is a plausible label
column. -/
def dfA : List Column :=
  [⟨"lab", [.val "x", .val "y", .val "x"]⟩,
   ⟨"a", [.val "1", .val "2", .val "3"]⟩,
   ⟨"b", [.missing, .val "q", .val "r"]⟩]

/-- A well-formed request over `dfA` taking the label from column 0 and
asking for a cap of 2 on a 2 × 2 grid. -/
def reqA : Request :=
  ⟨"data.csv", dfA, ⟨[1, 2], [1, 2], some 0, some 2, 2, false⟩⟩

/-! ### Lemmas about the stable argmax -/

theorem candBetter_irrefl (a : Option ℚ) : candBetter a a = false := by
  cases a with
  | none => rfl
  | some x => simp [candBetter]

theorem candBetter_asymm {a b : Option ℚ} (h : candBetter a b = true) :
    candBetter b a = false := by
  cases a <;> cases b <;> simp_all [candBetter]
  linarith

theorem candBetter_neg_trans {a b c : Option ℚ} (hab : candBetter a b = false)
    (hbc : candBetter b c = false) : candBetter a c = false := by
  cases a <;> cases b <;> cases c <;> simp_all [candBetter]
  linarith

theorem bestOf_eq_none_iff {l : List ComboResult} : bestOf l = none ↔ l = [] := by
  cases l with
  | nil => simp [bestOf]
  | cons r rs =>
    simp only [bestOf]
    constructor
    · intro h
      cases hb : bestOf rs with
      | none => rw [hb] at h; exact absurd h (by simp)
      | some b0 =>
        simp only [hb] at h
        by_cases hc : candBetter b0.score r.score = true
        · rw [if_pos hc] at h; exact absurd h (by simp)
        · rw [if_neg hc] at h; exact absurd h (by simp)
    · intro h
      exact absurd h (by simp)

theorem bestOf_mem {l : List ComboResult} {b : ComboResult}
    (h : bestOf l = some b) : b ∈ l := by
  induction l generalizing b with
  | nil => exact absurd h (by simp [bestOf])
  | cons r rs ih =>
    rw [bestOf] at h
    cases hb : bestOf rs with
    | none =>
      simp only [hb] at h
      injection h with h
      exact h ▸ List.mem_cons_self r rs
    | some b0 =>
      simp only [hb] at h
      by_cases hc : candBetter b0.score r.score = true
      · rw [if_pos hc] at h
        injection h with h
        exact h ▸ List.mem_cons_of_mem _ (ih hb)
      · rw [if_neg hc] at h
        injection h with h
        exact h ▸ List.mem_cons_self r rs

theorem bestOf_ge {l : List ComboResult} {b : ComboResult}
    (h : bestOf l = some b) :
    ∀ r ∈ l, candBetter r.score b.score = false := by
  induction l generalizing b with
  | nil => exact absurd h (by simp [bestOf])
  | cons r rs ih =>
    rw [bestOf] at h
    cases hb : bestOf rs with
    | none =>
      simp only [hb] at h
      injection h with h
      subst h
      intro x hx
      rcases List.mem_cons.1 hx with hx | hx
      · subst hx; exact candBetter_irrefl _
      · rw [bestOf_eq_none_iff.1 hb] at hx; exact absurd hx (by simp)
    | some b0 =>
      simp only [hb] at h
      by_cases hc : candBetter b0.score r.score = true
      · rw [if_pos hc] at h
        injection h with h
        subst h
        intro x hx
        rcases List.mem_cons.1 hx with hx | hx
        · subst hx; exact candBetter_asymm hc
        · exact ih hb x hx
      · rw [if_neg hc] at h
        injection h with h
        subst h
        intro x hx
        rcases List.mem_cons.1 hx with hx | hx
        · subst hx; exact candBetter_irrefl _
        · exact candBetter_neg_trans (ih hb x hx) (Bool.eq_false_iff.2 hc)

theorem bestOf_stable {l : List ComboResult} {b : ComboResult}
    (h : bestOf l = some b) :
    ∃ i : Nat, l[i]? = some b ∧
      ∀ j : Nat, j < i → ∀ r : ComboResult,
        l[j]? = some r → candBetter b.score r.score = true := by
  induction l generalizing b with
  | nil => exact absurd h (by simp [bestOf])
  | cons r rs ih =>
    rw [bestOf] at h
    cases hb : bestOf rs with
    | none =>
      simp only [hb] at h
      injection h with h
      subst h
      exact ⟨0, by simp, by omega⟩
    | some b0 =>
      simp only [hb] at h
      by_cases hc : candBetter b0.score r.score = true
      · rw [if_pos hc] at h
        injection h with h
        subst h
        obtain ⟨i, hi, hstab⟩ := ih hb
        refine ⟨i + 1, by simpa using hi, ?_⟩
        intro j hj x hx
        cases j with
        | zero =>
          simp at hx
          subst hx
          exact hc
        | succ k =>
          simp at hx
          exact hstab k (by omega) x hx
      · rw [if_neg hc] at h
        injection h with h
        subst h
        exact ⟨0, by simp, by omega⟩

theorem bestOf_all_undefined {l : List ComboResult}
    (hall : ∀ r ∈ l, r.score = none) : bestOf l = l.head? := by
  induction l with
  | nil => rfl
  | cons r rs ih =>
    rw [bestOf]
    cases hb : bestOf rs with
    | none => rfl
    | some b0 =>
      have hmem := bestOf_mem hb
      have hs0 : b0.score = none := hall b0 (List.mem_cons_of_mem _ hmem)
      simp [hs0, candBetter]

theorem find_best_ok_spec {X : Mat} {eps_range : List ℚ} {ms : List Nat}
    {cap : Option Nat} {runD : Mat → ℚ → Nat → List Int}
    {sil : Mat → List Int → ℚ} {out : FindBestOut}
    (h : find_best_dbscan_params X eps_range ms cap runD sil = .ok out) :
    out.results = (gridCombos eps_range ms cap).map (evalCombo X runD sil) ∧
    bestOf out.results = some out.best := by
  simp only [find_best_dbscan_params] at h
  split at h
  · exact absurd h (by simp)
  · split at h
    · exact absurd h (by simp)
    · split at h
      case h_1 b hb =>
        injection h with h
        subst h
        exact ⟨rfl, by simpa using hb⟩
      case h_2 hb => exact absurd h (by simp)

theorem gridCombos_uncapped_length (eps_range : List ℚ) (ms : List Nat) :
    (gridCombos eps_range ms none).length = eps_range.length * ms.length := by
  simp only [gridCombos, List.length_flatMap]
  induction eps_range with
  | nil => simp
  | cons e es ih => simp [ih, Nat.succ_mul, Nat.add_comm]

theorem gridCombos_uncapped_head (e : ℚ) (es : List ℚ) (m : Nat) (ms : List Nat) :
    (gridCombos (e :: es) (m :: ms) none).head? = some (e, m) := by
  simp [gridCombos]

/-- C3: for every Search Outcome produced by the grid search, the selected
best Combination Result's score is ≥ every defined score in the outcome's
result list, and when several combinations attain the maximum defined score,
the one encountered earliest in enumeration order is selected (stable
argmax): the best result occurs at an index before which every result has a
strictly worse score. -/
theorem find_best_selects_stable_argmax
    (X : Mat) (eps_range : List ℚ) (ms : List Nat) (cap : Option Nat)
    (runD : Mat → ℚ → Nat → List Int) (sil : Mat → List Int → ℚ)
    (out : FindBestOut)
    (h : find_best_dbscan_params X eps_range ms cap runD sil = .ok out) :
    out.best ∈ out.results ∧
    (∀ r ∈ out.results, ∀ s : ℚ, r.score = some s →
      ∃ b : ℚ, out.best.score = some b ∧ s ≤ b) ∧
    (∃ i : Nat, out.results[i]? = some out.best ∧
      ∀ j : Nat, j < i → ∀ r : ComboResult, out.results[j]? = some r →
        candBetter out.best.score r.score = true) := by
  obtain ⟨-, hbest⟩ := find_best_ok_spec h
  refine ⟨bestOf_mem hbest, ?_, bestOf_stable hbest⟩
  intro r hr s hs
  have hge := bestOf_ge hbest r hr
  rw [hs] at hge
  cases hbb : out.best.score with
  | none => rw [hbb] at hge; simp [candBetter] at hge
  | some b =>
    rw [hbb] at hge
    simp [candBetter] at hge
    exact ⟨b, rfl, hge⟩

theorem find_best_selects_stable_argmax_witness :
    ∃ out, find_best_dbscan_params [[0], [1], [2]] [1] [1] none twoClusterD
      zeroSil = .ok out ∧ out.best ∈ out.results ∧ out.best.score = some 0 :=
  ⟨_, rfl,
    (find_best_selects_stable_argmax [[0], [1], [2]] [1] [1] none twoClusterD
      zeroSil _ rfl).1, rfl⟩

theorem gridCombos_uncapped_mem {eps_range : List ℚ} {ms : List Nat}
    {c : ℚ × Nat} (h : c ∈ gridCombos eps_range ms none) :
    c.1 ∈ eps_range ∧ c.2 ∈ ms := by
  simp only [gridCombos, List.mem_flatMap] at h
  obtain ⟨e, he, hm⟩ := h
  obtain ⟨m, hm2, rfl⟩ := List.mem_map.1 hm
  exact ⟨he, hm2⟩

/-- C4: for every non-empty search space on at least two rows, the search
returns a result rather than raising: every combination is recorded (the
result list has the full product length), degenerate combinations (fewer
than 2 non-noise clusters) are recorded with an undefined score, and when
every combination is degenerate the optimizer still returns the first
enumerated combination's partition with an undefined score. -/
theorem find_best_degenerate_handling
    (X : Mat) (eps_range : List ℚ) (ms : List Nat)
    (runD : Mat → ℚ → Nat → List Int) (sil : Mat → List Int → ℚ)
    (heps : eps_range ≠ []) (hms : ms ≠ []) (hX : 2 ≤ X.length) :
    (∃ out, find_best_dbscan_params X eps_range ms none runD sil = .ok out ∧
      out.results.length = eps_range.length * ms.length ∧
      ∀ r ∈ out.results, nClusters r.labels < 2 → r.score = none) ∧
    ((∀ e ∈ eps_range, ∀ m ∈ ms, nClusters (runD X e m) < 2) →
      ∃ out, find_best_dbscan_params X eps_range ms none runD sil = .ok out ∧
        out.results.head? = some out.best ∧
        out.best.score = none ∧
        out.best.labels = runD X (eps_range.headD 0) (ms.headD 0)) := by
  have hne : ¬(eps_range.isEmpty ∨ ms.isEmpty) := by
    simp [List.isEmpty_iff]
    exact ⟨heps, hms⟩
  have hlen : ¬(X.length < 2) := by omega
  set results := (gridCombos eps_range ms none).map (evalCombo X runD sil)
    with hres
  have hlenr : results.length = eps_range.length * ms.length := by
    rw [hres, List.length_map, gridCombos_uncapped_length]
  have hrne : results ≠ [] := by
    intro hnil
    rw [hnil] at hlenr
    simp at hlenr
    rcases hlenr with h | h
    · exact heps h
    · exact hms h
  constructor
  · cases hb : bestOf results with
    | none => exact absurd (bestOf_eq_none_iff.1 hb) hrne
    | some b =>
      refine ⟨⟨b, results⟩, ?_, ?_, ?_⟩
      · simp only [find_best_dbscan_params, if_neg hne, if_neg hlen, ← hres, hb]
      · exact hlenr
      · intro r hr hdeg
        rw [hres] at hr
        obtain ⟨c, -, hc⟩ := List.mem_map.1 hr
        rw [← hc]
        simp only [evalCombo, comboScore]
        rw [← hc] at hdeg
        simp only [evalCombo] at hdeg
        simp [hdeg]
  · intro hdegall
    have hall : ∀ r ∈ results, r.score = none := by
      intro r hr
      rw [hres] at hr
      obtain ⟨c, hcmem, hc⟩ := List.mem_map.1 hr
      obtain ⟨hc1, hc2⟩ := gridCombos_uncapped_mem hcmem
      rw [← hc]
      simp only [evalCombo, comboScore]
      simp [hdegall c.1 hc1 c.2 hc2]
    have hb : bestOf results = results.head? := bestOf_all_undefined hall
    cases eps_range with
    | nil => exact absurd rfl heps
    | cons e es =>
      cases ms with
      | nil => exact absurd rfl hms
      | cons m ms2 =>
        have hhead : results.head? = some (evalCombo X runD sil (e, m)) := by
          rw [hres, List.head?_map, gridCombos_uncapped_head]
          rfl
        refine ⟨⟨evalCombo X runD sil (e, m), results⟩, ?_, ?_, ?_, ?_⟩
        · simp only [find_best_dbscan_params, if_neg hne, if_neg hlen, ← hres]
          rw [hb, hhead]
        · rw [hhead]
        · simp only [evalCombo, comboScore]
          simp [hdegall e (List.mem_cons_self e es) m (List.mem_cons_self m ms2)]
        · simp [evalCombo]

theorem find_best_degenerate_handling_witness :
    ∃ out, find_best_dbscan_params [[0], [1]] [1, 2] [1] none allNoiseD zeroSil
        = .ok out ∧ out.best.score = none ∧ out.best.labels = [-1, -1] := by
  obtain ⟨-, h2⟩ := find_best_degenerate_handling [[0], [1]] [1, 2] [1]
    allNoiseD zeroSil (by decide) (by decide) (by decide)
  obtain ⟨out, hok, -, hscore, hlab⟩ := h2 (fun e he m hm => by
    change nClusters [-1, -1] < 2
    decide)
  exact ⟨out, hok, hscore, by simpa [allNoiseD] using hlab⟩

/-- C1: the claim that setting `max_grid_search_combinations` below the
product size truncates the grid search fails on the code — the call at
lines 158-162 of `src/main.py` never forwards
`params.max_grid_search_combinations` to `find_best_dbscan_params`, even
though the field's own declaration (line 30) documents it as limiting the
grid search.  On a request with a cap of 2 over a 2 × 2 grid, all 4
combinations are evaluated and reported. -/
theorem perform_clustering_ignores_cap :
    reqA.params.max_grid_search_combinations = some 2 ∧
    reqA.params.eps_range.length * reqA.params.min_samples_range.length = 4 ∧
    ∃ resp, perform_clustering digitsNum onesPre allNoiseD zeroSil reqA
        = .ok resp ∧ resp.parameter_combinations_tested = 4 :=
  ⟨rfl, rfl, _, rfl, rfl⟩

theorem filterMap_col_length (g : List Nat) (row : List ℚ) (w : ℚ)
    (h : ∀ j ∈ g, j < row.length) :
    (g.filterMap (fun j => (row.get? j).map (fun x => w * x))).length
      = g.length := by
  induction g with
  | nil => rfl
  | cons j g2 ih =>
    have hj : j < row.length := h j (by simp)
    simp only [List.filterMap_cons, List.get?_eq_get hj, Option.map_some',
      List.length_cons]
    rw [ih (fun x hx => h x (List.mem_cons_of_mem _ hx))]

theorem mfaRow_length (gws : List (List Nat × ℚ)) (row : List ℚ)
    (h : ∀ gw ∈ gws, ∀ j ∈ gw.1, j < row.length) :
    (mfaRow gws row).length = (gws.map (fun gw => gw.1.length)).sum := by
  induction gws with
  | nil => rfl
  | cons gw rest ih =>
    simp only [mfaRow, List.flatMap_cons, List.length_append]
    rw [filterMap_col_length gw.1 row gw.2 (h gw (by simp))]
    have ih2 := ih (fun x hx => h x (List.mem_cons_of_mem _ hx))
    simp only [mfaRow] at ih2
    rw [ih2]
    simp

/-- C7: for every Feature Matrix and disjoint covering Group Specification
(every group index below the column count, group sizes summing to it), the
MFA reduction fails with `InvalidComponentCount` when `n_components_global`
exceeds the concatenated matrix's column count, and otherwise returns a
Global Factors matrix of shape (n_samples, n_components_global). -/
theorem CustomMFA_shape (groups : List (List Nat)) (k : Nat) (X : Mat)
    (n : Nat) (hX : ∀ row ∈ X, row.length = n)
    (hcover : ∀ g ∈ groups, ∀ j ∈ g, j < n)
    (hsum : (groups.map List.length).sum = n) :
    (n < k → CustomMFA_fit_transform groups k X = .error .invalidComponentCount) ∧
    (k ≤ n → ∃ Y, CustomMFA_fit_transform groups k X = .ok Y ∧
      Y.length = X.length ∧ ∀ row ∈ Y, row.length = k) := by
  constructor
  · intro hk
    simp only [CustomMFA_fit_transform]
    rw [hsum, if_pos hk]
  · intro hk
    simp only [CustomMFA_fit_transform]
    rw [hsum, if_neg (by omega)]
    refine ⟨_, rfl, ?_, ?_⟩
    · simp [pcaRetain]
    · intro row hrow
      simp only [pcaRetain, List.mem_map] at hrow
      obtain ⟨z, hz, hzeq⟩ := hrow
      obtain ⟨r, hr, hreq⟩ := hz
      rw [← hzeq, List.length_take, ← hreq]
      rw [mfaRow_length _ _ ?hcond]
      · have hws : ((groups.map (fun g => (g, groupWeight X g))).map
            (fun gw => gw.1.length)).sum = n := by
          rw [List.map_map]
          simpa using hsum
        rw [hws]
        omega
      case hcond =>
        intro gw hgw j hj
        obtain ⟨g, hg, hgweq⟩ := List.mem_map.1 hgw
        have hj2 : j ∈ g := by rw [← hgweq] at hj; exact hj
        rw [hX r hr]
        exact hcover g hg j hj2

theorem CustomMFA_shape_witness :
    (CustomMFA_fit_transform [[0, 1], [2, 3, 4]] 6
        [[1, 2, 3, 4, 5], [0, 1, 0, 1, 0]] = .error .invalidComponentCount) ∧
    ∃ Y, CustomMFA_fit_transform [[0, 1], [2, 3, 4]] 2
        [[1, 2, 3, 4, 5], [0, 1, 0, 1, 0]] = .ok Y ∧
      Y.length = 2 ∧ ∀ row ∈ Y, row.length = 2 := by
  constructor
  · exact (CustomMFA_shape [[0, 1], [2, 3, 4]] 6 [[1, 2, 3, 4, 5], [0, 1, 0, 1, 0]]
      5 (by decide) (by decide) (by decide)).1 (by decide)
  · obtain ⟨Y, hY, hlen, hrows⟩ :=
      (CustomMFA_shape [[0, 1], [2, 3, 4]] 2 [[1, 2, 3, 4, 5], [0, 1, 0, 1, 0]]
        5 (by decide) (by decide) (by decide)).2 (by decide)
    exact ⟨Y, hY, by simpa using hlen, hrows⟩

theorem perform_clustering_ok_chain
    {p : String → Bool} {pre : List Column → List String → List String → Mat}
    {runD : Mat → ℚ → Nat → List Int} {sil : Mat → List Int → ℚ}
    {req : Request} {resp : Response}
    (h : perform_clustering p pre runD sil req = .ok resp) :
    ∃ lab df X out,
      splitLabel req = .ok (lab, df) ∧
      buildFeatures pre req.params df ((classifyColumns p df).1.map Column.name)
        ((classifyColumns p df).2.map Column.name) = .ok X ∧
      find_best_dbscan_params X req.params.eps_range
        req.params.min_samples_range none runD sil = .ok out ∧
      resp = mkResponse req lab (lab.map Column.name)
        ((classifyColumns p df).1.map Column.name)
        ((classifyColumns p df).2.map Column.name) out := by
  simp only [perform_clustering] at h
  split at h
  · exact absurd h (by simp)
  · cases ht : tryBody p pre runD sil req with
    | error e => rw [ht] at h; exact absurd h (by simp)
    | ok resp2 =>
      rw [ht] at h
      injection h with h
      subst h
      simp only [tryBody, bind, Except.bind] at ht
      cases hs : splitLabel req with
      | error e => simp only [hs] at ht; exact absurd ht (by simp)
      | ok s =>
        simp only [hs] at ht
        cases hf : buildFeatures pre req.params s.2
            ((classifyColumns p s.2).1.map Column.name)
            ((classifyColumns p s.2).2.map Column.name) with
        | error e => simp only [hf] at ht; exact absurd ht (by simp)
        | ok X =>
          simp only [hf] at ht
          cases hfb : find_best_dbscan_params X req.params.eps_range
              req.params.min_samples_range none runD sil with
          | error e =>
            simp only [hfb, Except.mapError] at ht
            exact absurd ht (by simp)
          | ok out =>
            simp only [hfb, Except.mapError] at ht
            injection ht with ht
            exact ⟨s.1, s.2, X, out, rfl, hf, hfb, ht.symm⟩

/-- C2: for every clustering request that supplies a label column and
succeeds, the argument pair handed to the five external validation metrics
is exactly (the label column's cells, the grid search's best partition) —
the raw predicted labels, with no remapping step in between. -/
theorem metrics_computed_on_raw_partition
    {p : String → Bool} {pre : List Column → List String → List String → Mat}
    {runD : Mat → ℚ → Nat → List Int} {sil : Mat → List Int → ℚ}
    {req : Request} {resp : Response} {idx : Int}
    (hidx : req.params.label_column_index = some idx)
    (h : perform_clustering p pre runD sil req = .ok resp) :
    ∃ lab df X out,
      splitLabel req = .ok (some lab, df) ∧
      buildFeatures pre req.params df ((classifyColumns p df).1.map Column.name)
        ((classifyColumns p df).2.map Column.name) = .ok X ∧
      find_best_dbscan_params X req.params.eps_range
        req.params.min_samples_range none runD sil = .ok out ∧
      resp.metricsInput = some (lab.cells, out.best.labels) := by
  obtain ⟨lab, df, X, out, hs, hf, hfb, hresp⟩ := perform_clustering_ok_chain h
  cases lab with
  | none =>
    exfalso
    simp only [splitLabel, hidx, bind, Except.bind] at hs
    cases hsel : selectLabelColumn req.df idx with
    | error e => simp [hsel] at hs
    | ok cs => simp [hsel] at hs
  | some c =>
    refine ⟨c, df, X, out, hs, hf, hfb, ?_⟩
    rw [hresp]
    rfl

theorem metrics_computed_on_raw_partition_witness :
    ∃ resp, perform_clustering digitsNum onesPre allNoiseD zeroSil reqA
        = .ok resp ∧
      ∃ lab df X out,
        splitLabel reqA = .ok (some lab, df) ∧
        buildFeatures onesPre reqA.params df
          ((classifyColumns digitsNum df).1.map Column.name)
          ((classifyColumns digitsNum df).2.map Column.name) = .ok X ∧
        find_best_dbscan_params X reqA.params.eps_range
          reqA.params.min_samples_range none allNoiseD zeroSil = .ok out ∧
        resp.metricsInput = some (lab.cells, out.best.labels) :=
  ⟨_, rfl, metrics_computed_on_raw_partition rfl rfl⟩

theorem dedup_filter_card (l : List Int) :
    (l.dedup.filter (fun c => c ≠ -1)).length = (l.toFinset.erase (-1)).card := by
  have h1 : (l.dedup.filter (fun c => c ≠ -1)).Nodup :=
    (List.nodup_dedup l).filter _
  rw [← List.dedup_eq_self.2 h1, ← List.card_toFinset, List.toFinset_filter]
  congr 1
  ext x
  simp [List.mem_dedup, Finset.mem_erase, and_comm]

/-- C6: in every successful response, `number_of_clusters` is the number of
distinct cluster identifiers of the best partition excluding the noise
sentinel -1, and `noise_points` is the number of entries equal to -1. -/
theorem response_cluster_and_noise_counts
    {p : String → Bool} {pre : List Column → List String → List String → Mat}
    {runD : Mat → ℚ → Nat → List Int} {sil : Mat → List Int → ℚ}
    {req : Request} {resp : Response}
    (h : perform_clustering p pre runD sil req = .ok resp) :
    ∃ lab df X out,
      splitLabel req = .ok (lab, df) ∧
      buildFeatures pre req.params df ((classifyColumns p df).1.map Column.name)
        ((classifyColumns p df).2.map Column.name) = .ok X ∧
      find_best_dbscan_params X req.params.eps_range
        req.params.min_samples_range none runD sil = .ok out ∧
      resp.number_of_clusters = (out.best.labels.toFinset.erase (-1)).card ∧
      resp.noise_points = (out.best.labels.filter (fun x => x = -1)).length := by
  obtain ⟨lab, df, X, out, hs, hf, hfb, hresp⟩ := perform_clustering_ok_chain h
  refine ⟨lab, df, X, out, hs, hf, hfb, ?_, ?_⟩
  · rw [hresp]
    exact dedup_filter_card out.best.labels
  · rw [hresp]
    exact List.countP_eq_length_filter _ _

theorem response_cluster_and_noise_counts_witness :
    ∃ resp, perform_clustering digitsNum onesPre allNoiseD zeroSil reqA
        = .ok resp ∧
      ∃ lab df X out,
        splitLabel reqA = .ok (lab, df) ∧
        buildFeatures onesPre reqA.params df
          ((classifyColumns digitsNum df).1.map Column.name)
          ((classifyColumns digitsNum df).2.map Column.name) = .ok X ∧
        find_best_dbscan_params X reqA.params.eps_range
          reqA.params.min_samples_range none allNoiseD zeroSil = .ok out ∧
        resp.number_of_clusters = (out.best.labels.toFinset.erase (-1)).card ∧
        resp.noise_points = (out.best.labels.filter (fun x => x = -1)).length :=
  ⟨_, rfl, response_cluster_and_noise_counts rfl⟩

/-- C5: in the classification loop of lines 111-119, a column is classified
numeric iff every non-missing value parses as a number (the opaque parser
`p` standing for `pd.to_numeric` on one value), otherwise categorical, and
every column lands in exactly one of the two lists. -/
theorem column_classification_rule (p : String → Bool) (df : List Column) :
    ∀ c ∈ df,
      (columnIsNumeric p c = true ↔ ∀ s, Cell.val s ∈ c.cells → p s = true) ∧
      (c ∈ (classifyColumns p df).1 ↔ c ∈ df ∧ columnIsNumeric p c = true) ∧
      (c ∈ (classifyColumns p df).2 ↔ c ∈ df ∧ columnIsNumeric p c = false) ∧
      ((c ∈ (classifyColumns p df).1 ∧ c ∉ (classifyColumns p df).2) ∨
       (c ∈ (classifyColumns p df).2 ∧ c ∉ (classifyColumns p df).1)) := by
  intro c hc
  have hiff : columnIsNumeric p c = true ↔
      ∀ s, Cell.val s ∈ c.cells → p s = true := by
    simp only [columnIsNumeric, List.all_eq_true]
    constructor
    · intro h s hs
      simpa using h _ hs
    · intro h cell hcell
      cases cell with
      | missing => rfl
      | val s => exact h s hcell
  have h1 : (classifyColumns p df).1 = df.filter (columnIsNumeric p) := by
    simp [classifyColumns, List.partition_eq_filter_filter]
  have h2 : (classifyColumns p df).2
      = df.filter (fun c0 => !(columnIsNumeric p c0)) := by
    simp only [classifyColumns, List.partition_eq_filter_filter]
    rfl
  refine ⟨hiff, ?_, ?_, ?_⟩
  · rw [h1]; exact List.mem_filter
  · rw [h2]
    simp [List.mem_filter]
  · by_cases hn : columnIsNumeric p c = true
    · left
      refine ⟨h1 ▸ List.mem_filter.2 ⟨hc, hn⟩, ?_⟩
      rw [h2]
      simp [List.mem_filter, hn]
    · right
      refine ⟨?_, ?_⟩
      · rw [h2]
        simp [List.mem_filter, hc, Bool.eq_false_iff.2 hn]
      · rw [h1]
        simp [List.mem_filter, hn]

theorem column_classification_rule_witness :
    ((⟨"a", [Cell.val "1", Cell.val "2", Cell.val "3"]⟩ : Column)
        ∈ (classifyColumns digitsNum dfA).1 ∧
      (⟨"a", [Cell.val "1", Cell.val "2", Cell.val "3"]⟩ : Column)
        ∉ (classifyColumns digitsNum dfA).2) ∨
    ((⟨"a", [Cell.val "1", Cell.val "2", Cell.val "3"]⟩ : Column)
        ∈ (classifyColumns digitsNum dfA).2 ∧
      (⟨"a", [Cell.val "1", Cell.val "2", Cell.val "3"]⟩ : Column)
        ∉ (classifyColumns digitsNum dfA).1) :=
  (column_classification_rule digitsNum dfA
    ⟨"a", [Cell.val "1", Cell.val "2", Cell.val "3"]⟩ (by decide)).2.2.2

theorem selectLabelColumn_ok {cols : List Column} {idx : Int} {c : Column}
    {rest : List Column} (h : selectLabelColumn cols idx = .ok (c, rest)) :
    pyIndex cols idx = some c ∧
    rest = cols.filter (fun c0 => c0.name ≠ c.name) ∧
    ¬((cols.length : Int) ≤ idx) := by
  simp only [selectLabelColumn] at h
  split at h
  case isTrue hge => exact absurd h (by simp)
  case isFalse hge =>
    cases hp : pyIndex cols idx with
    | none => simp only [hp] at h; exact absurd h (by simp)
    | some c2 =>
      simp only [hp] at h
      injection h with h
      have hc : c2 = c := congrArg Prod.fst h
      have hrest : rest = cols.filter (fun c0 => c0.name ≠ c2.name) :=
        (congrArg Prod.snd h).symm
      subst hc
      exact ⟨rfl, hrest, hge⟩

/-- C9: the explicit 400 rejection for the label column index fires iff
`label_column_index >= len(columns)`; every negative index passes this
validation, and a negative index of magnitude at most the column count
silently selects the column counted from the end of the table. -/
theorem label_index_validation_asymmetry (cols : List Column) (idx : Int) :
    ((∃ d, selectLabelColumn cols idx = .error (.httpExc 400 d)) ↔
      (cols.length : Int) ≤ idx) ∧
    (idx < 0 → -(cols.length : Int) ≤ idx →
      ∃ c rest, selectLabelColumn cols idx = .ok (c, rest) ∧
        cols[((cols.length : Int) + idx).toNat]? = some c) := by
  constructor
  · constructor
    · rintro ⟨d, hd⟩
      by_contra hlt
      simp only [selectLabelColumn] at hd
      rw [if_neg hlt] at hd
      cases hp : pyIndex cols idx with
      | none => simp only [hp] at hd; exact absurd hd (by simp)
      | some c2 => simp only [hp] at hd; exact absurd hd (by simp)
    · intro hge
      exact ⟨_, by simp only [selectLabelColumn]; rw [if_pos hge]⟩
  · intro hneg hlb
    have hnotge : ¬((cols.length : Int) ≤ idx) := by omega
    have hlt : ((cols.length : Int) + idx).toNat < cols.length := by omega
    have hidx : pyIndex cols idx
        = cols.get? ((cols.length : Int) + idx).toNat := by
      simp only [pyIndex]
      rw [if_neg (by omega), if_pos hlb]
    obtain ⟨c, hc⟩ : ∃ c, cols.get? ((cols.length : Int) + idx).toNat = some c :=
      ⟨_, List.get?_eq_get hlt⟩
    refine ⟨c, cols.filter (fun c0 => c0.name ≠ c.name), ?_, ?_⟩
    · simp only [selectLabelColumn]
      rw [if_neg hnotge, hidx, hc]
    · rw [← List.get?_eq_getElem?]
      exact hc

theorem label_index_validation_asymmetry_witness :
    (¬ ∃ d, selectLabelColumn dfA (-1) = .error (.httpExc 400 d)) ∧
    ∃ c rest, selectLabelColumn dfA (-1) = .ok (c, rest) ∧
      dfA[(((dfA.length : Int) + (-1)).toNat)]? = some c := by
  have h := label_index_validation_asymmetry dfA (-1)
  constructor
  · intro hex
    have h3 := h.1.1 hex
    simp at h3
    omega
  · exact h.2 (by decide) (by decide)

/-- C8: when `label_column_index` is 0, the first column is removed from the
features and its cells feed the external metrics as ground truth, yet the
response's `preprocessing.label_column` is `None`, because line 189 tests
the index for truthiness and `0` is falsy; for every positive in-range
index the field holds the removed column's name. -/
theorem label_column_zero_falsy
    {p : String → Bool} {pre : List Column → List String → List String → Mat}
    {runD : Mat → ℚ → Nat → List Int} {sil : Mat → List Int → ℚ}
    {req : Request} {resp : Response}
    (h : perform_clustering p pre runD sil req = .ok resp) :
    (req.params.label_column_index = some 0 →
      resp.label_column = none ∧
      ∃ c df, req.df.head? = some c ∧
        splitLabel req = .ok (some c, df) ∧
        df = req.df.filter (fun c0 => c0.name ≠ c.name) ∧
        ∃ pr, resp.metricsInput = some pr ∧ pr.1 = c.cells) ∧
    (∀ j : Int, req.params.label_column_index = some j → 0 < j →
      ∀ c, req.df[j.toNat]? = some c → resp.label_column = some c.name) := by
  obtain ⟨lab, df, X, out, hs, hf, hfb, hresp⟩ := perform_clustering_ok_chain h
  constructor
  · intro hidx
    simp only [splitLabel, hidx, bind, Except.bind] at hs
    cases hsel : selectLabelColumn req.df 0 with
    | error e => simp only [hsel] at hs; exact absurd hs (by simp)
    | ok cs =>
      simp only [hsel] at hs
      injection hs with hs
      have hl : some cs.1 = lab := congrArg Prod.fst hs
      obtain ⟨hpy, hrest, -⟩ := selectLabelColumn_ok hsel
      have hpy0 : pyIndex req.df 0 = req.df.get? 0 := by simp [pyIndex]
      rw [hpy0, List.get?_zero] at hpy
      refine ⟨?_, cs.1, cs.2, hpy, ?_, hrest, ?_⟩
      · rw [hresp]
        simp [mkResponse, truthyIdx, hidx]
      · simp only [splitLabel, hidx, bind, Except.bind, hsel]
      · refine ⟨(cs.1.cells, out.best.labels), ?_, rfl⟩
        rw [hresp]
        simp only [mkResponse, ← hl]
        rfl
  · intro j hidx hj c hc
    simp only [splitLabel, hidx, bind, Except.bind] at hs
    cases hsel : selectLabelColumn req.df j with
    | error e => simp only [hsel] at hs; exact absurd hs (by simp)
    | ok cs =>
      simp only [hsel] at hs
      injection hs with hs
      have hl : some cs.1 = lab := congrArg Prod.fst hs
      obtain ⟨hpy, -, -⟩ := selectLabelColumn_ok hsel
      have hpyj : pyIndex req.df j = req.df.get? j.toNat := by
        simp only [pyIndex]
        rw [if_pos (by omega)]
      rw [hpyj, List.get?_eq_getElem?, hc] at hpy
      injection hpy with hpy
      have ht : truthyIdx req.params.label_column_index = true := by
        rw [hidx]
        simp only [truthyIdx]
        simp
        omega
      rw [hresp]
      simp only [mkResponse, ht, if_true, ← hl, Option.map_some']
      rw [hpy]

theorem label_column_zero_falsy_witness :
    ∃ resp, perform_clustering digitsNum onesPre allNoiseD zeroSil reqA
        = .ok resp ∧ resp.label_column = none ∧
      ∃ pr, resp.metricsInput = some pr ∧
        pr.1 = [Cell.val "x", Cell.val "y", Cell.val "x"] := by
  refine ⟨_, rfl, ?_⟩
  obtain ⟨hnone, c, df, hhead, -, -, pr, hpr, hcells⟩ :=
    (label_column_zero_falsy (rfl :
      perform_clustering digitsNum onesPre allNoiseD zeroSil reqA = .ok _)).1 rfl
  refine ⟨hnone, pr, hpr, ?_⟩
  have hch : c = ⟨"lab", [Cell.val "x", Cell.val "y", Cell.val "x"]⟩ := by
    have : reqA.df.head? = some ⟨"lab", [Cell.val "x", Cell.val "y", Cell.val "x"]⟩ := rfl
    rw [this] at hhead
    exact (Option.some.inj hhead).symm
  rw [hcells, hch]

/-- C10: every exception raised inside the main `try` block — the
invalid-label-index 400 `HTTPException` included — is caught by the blanket
handler and re-raised as a 500 whose detail starts with
"Error during clustering: "; the only 400 the endpoint can return is the
non-CSV filename check sitting outside the `try` block. -/
theorem perform_clustering_error_translation
    {p : String → Bool} {pre : List Column → List String → List String → Mat}
    {runD : Mat → ℚ → Nat → List Int} {sil : Mat → List Int → ℚ}
    {req : Request} {e : HTTPError}
    (h : perform_clustering p pre runD sil req = .error e) :
    (e.status = 400 ∧ e.detail = "Only CSV files are supported" ∧
      endsWithCsv req.filename = false) ∨
    (e.status = 500 ∧ ∃ rest, e.detail = "Error during clustering: " ++ rest) := by
  simp only [perform_clustering] at h
  split at h
  case isTrue hcsv =>
    left
    injection h with h
    rw [← h]
    exact ⟨rfl, rfl, by simpa using hcsv⟩
  case isFalse hcsv =>
    cases ht : tryBody p pre runD sil req with
    | ok r => rw [ht] at h; exact absurd h (by simp)
    | error ex =>
      rw [ht] at h
      injection h with h
      right
      rw [← h]
      exact ⟨rfl, ex.msg, rfl⟩

theorem perform_clustering_error_translation_witness :
    ∃ e, perform_clustering digitsNum onesPre allNoiseD zeroSil
        { reqA with params := { reqA.params with label_column_index := some 9 } }
        = .error e ∧ e.status = 500 ∧
      ∃ rest, e.detail = "Error during clustering: " ++ rest := by
  refine ⟨_, rfl, ?_⟩
  rcases perform_clustering_error_translation (rfl :
      perform_clustering digitsNum onesPre allNoiseD zeroSil
        { reqA with params := { reqA.params with label_column_index := some 9 } }
        = .error _) with ⟨-, -, hfalse⟩ | hok
  · exact absurd hfalse (by decide)
  · exact hok

end CurotecTask
